import Mathlib

/-!
# Verification of the vote-bot voting session engine

Shallow embedding of `src/main.py` (a Telegram voting bot backed by a
Postgres database).  The four persisted tables created by `init_db` —
`channels`, `candidates`, `votes`, `settings` — become lists of rows; the
SQL statements of each handler become pure functions on that state.

Conventions of the embedding:
* Timestamps are natural numbers (seconds).  `datetime.isoformat` /
  `datetime.fromisoformat` become an abstract formatting function
  `fmt : Nat → String` and parsing function `parse : String → Option Nat`
  passed as parameters (Python's `fromisoformat` raising is `none`).
* The Telegram membership oracle `bot.get_chat_member` becomes a function
  `String → Int → OracleReply`: a raised exception is `OracleReply.failure`,
  otherwise `OracleReply.status s` carries the member-status string.
* Message texts sent back to the user are presentation and are collapsed
  into the `Reply` inductive; only the distinction between answering
  nothing, answering a message, and the "Кириш йўқ" denial alert is kept.
-/

namespace VoteBot

/-- A row of `candidates(id SERIAL PRIMARY KEY, name TEXT NOT NULL)`. -/
structure Candidate where
  id : Nat
  name : String
deriving DecidableEq

/-- A row of `votes(user_id BIGINT PRIMARY KEY, candidate_id INTEGER
REFERENCES candidates(id) ON DELETE CASCADE, voted_at TIMESTAMPTZ)`. -/
structure VoteRow where
  user_id : Int
  candidate_id : Nat
  voted_at : Nat
deriving DecidableEq

/-- A row of `channels(chat_id TEXT PRIMARY KEY, join_url TEXT)`. -/
structure Channel where
  chat_id : String
  join_url : Option String
deriving DecidableEq

/-- The persisted database state.  `settings` is the key-value table
`settings(key TEXT PRIMARY KEY, value TEXT)`; `nextCandId` models the
`SERIAL` sequence backing `candidates.id`. -/
structure DB where
  channels : List Channel
  candidates : List Candidate
  votes : List VoteRow
  settings : List (String × String)
  nextCandId : Nat
deriving DecidableEq

/-- `ADMINS = [32257986]` from the configuration block. -/
def ADMINS : List Int := [32257986]

/-- `is_admin(uid): return uid in ADMINS`. -/
def is_admin (uid : Int) : Bool := ADMINS.contains uid

/-! ## Settings / timer (`get_setting`, `set_setting`, `get_end_time`,
`voting_is_open`) -/

/-- `SELECT value FROM settings WHERE key=$1`. -/
def get_setting (settings : List (String × String)) (key : String) :
    Option String :=
  (settings.find? (fun kv => kv.1 == key)).map (fun kv => kv.2)

/-- `set_setting(key, value)`: `value is None` deletes the row, otherwise
`INSERT ... ON CONFLICT (key) DO UPDATE SET value=EXCLUDED.value`. -/
def set_setting (settings : List (String × String)) (key : String) :
    Option String → List (String × String)
  | none => settings.filter (fun kv => !(kv.1 == key))
  | some v =>
    if settings.any (fun kv => kv.1 == key) then
      settings.map (fun kv => if kv.1 == key then (key, v) else kv)
    else
      settings ++ [(key, v)]

/-- `get_end_time`: read the `end_time_utc` setting; `None` or the empty
string gives `None` (Python `if not v`), and a value on which
`datetime.fromisoformat` raises also gives `None`. -/
def get_end_time (parse : String → Option Nat)
    (settings : List (String × String)) : Option Nat :=
  match get_setting settings "end_time_utc" with
  | none => none
  | some v => if v = "" then none else parse v

/-- `voting_is_open`: open when no end time, otherwise `now_utc() < end_time`
(strict). -/
def voting_is_open (parse : String → Option Nat)
    (settings : List (String × String)) (now : Nat) : Bool :=
  match get_end_time parse settings with
  | none => true
  | some e => decide (now < e)

/-! ## Eligibility (`get_channels`, `is_subscribed`) -/

/-- Result of one `bot.get_chat_member(chat_id, user_id)` call:
`failure` models the `except Exception` branch. -/
inductive OracleReply where
  | status (s : String)
  | failure
deriving DecidableEq

/-- `member.status in ("left", "kicked")`. -/
def statusNotMember (s : String) : Bool := s == "left" || s == "kicked"

/-- The chat ids of `SELECT chat_id, join_url FROM channels`. -/
def get_channels (db : DB) : List String :=
  db.channels.map (fun c => c.chat_id)

/-- `is_subscribed(user_id)`: `True` on an empty channel list; otherwise
walk the channels, returning `False` on the first oracle failure or
`left`/`kicked` status, `True` once every channel passed. -/
def is_subscribed (oracle : String → Int → OracleReply) (user_id : Int) :
    List String → Bool
  | [] => true
  | ch :: rest =>
    match oracle ch user_id with
    | OracleReply.failure => false
    | OracleReply.status s =>
      if statusNotMember s then false else is_subscribed oracle user_id rest

/-- One configured channel passed the oracle check: the call succeeded and
the status is not `left`/`kicked`. -/
def oracleOk (oracle : String → Int → OracleReply) (user_id : Int)
    (ch : String) : Prop :=
  ∃ s, oracle ch user_id = OracleReply.status s ∧ statusNotMember s = false

/-! ## Ballot store (`cb_vote`'s upsert) -/

/-- `INSERT INTO votes(user_id, candidate_id) VALUES ($1,$2) ON CONFLICT
(user_id) DO UPDATE SET candidate_id=EXCLUDED.candidate_id, voted_at=NOW()`,
with `voted_at DEFAULT NOW()` on the insert path. -/
def castUpsert (votes : List VoteRow) (uid : Int) (cid : Nat) (now : Nat) :
    List VoteRow :=
  if votes.any (fun r => r.user_id == uid) then
    votes.map (fun r => if r.user_id == uid then ⟨uid, cid, now⟩ else r)
  else
    votes ++ [⟨uid, cid, now⟩]

/-- A sequence of successful casts by one voter, oldest first; each entry
is (candidate id, cast time). -/
def castSeq (votes : List VoteRow) (uid : Int) :
    List (Nat × Nat) → List VoteRow
  | [] => votes
  | (cid, t) :: rest => castSeq (castUpsert votes uid cid t) uid rest

/-- The rows of the vote table belonging to one voter. -/
def votesFor (votes : List VoteRow) (uid : Int) : List VoteRow :=
  votes.filter (fun r => r.user_id == uid)

/-- The `user_id PRIMARY KEY` constraint: all rows carry distinct voters. -/
def UniqueUsers (votes : List VoteRow) : Prop :=
  votes.Pairwise (fun a b => a.user_id ≠ b.user_id)

/-! ## The vote handler `cb_vote` -/

/-- Outcome of `cb_vote`, in the order its guards appear in the handler. -/
inductive VoteOutcome where
  | notEligible
  | votingClosed
  | badPayload
  | noSuchCandidate
  | accepted
deriving DecidableEq

/-- `cb_vote`: subscription check first, then the window check, then the
callback-payload parse (`payload = none` models `int(...)` raising), then
candidate existence, then the upsert.  Returns the outcome and the new
database state. -/
def cb_vote (oracle : String → Int → OracleReply)
    (parse : String → Option Nat) (db : DB) (uid : Int)
    (payload : Option Nat) (now : Nat) : VoteOutcome × DB :=
  if is_subscribed oracle uid (get_channels db) then
    if voting_is_open parse db.settings now then
      match payload with
      | none => (VoteOutcome.badPayload, db)
      | some cid =>
        if db.candidates.any (fun c => c.id == cid) then
          (VoteOutcome.accepted,
           { db with votes := castUpsert db.votes uid cid now })
        else
          (VoteOutcome.noSuchCandidate, db)
    else
      (VoteOutcome.votingClosed, db)
  else
    (VoteOutcome.notEligible, db)

/-! ## Tally (`candidates_with_counts`, `results_text_and_buttons`) -/

/-- Number of vote rows for one candidate: the live
`COUNT(v.user_id) ... LEFT JOIN votes v ON v.candidate_id = c.id`. -/
def countFor (votes : List VoteRow) (cid : Nat) : Nat :=
  (votes.filter (fun r => r.candidate_id == cid)).length

/-- `ORDER BY c.id ASC` over the candidate registry. -/
def candLe (a b : Candidate) : Prop := a.id ≤ b.id

instance : DecidableRel candLe :=
  fun a b => inferInstanceAs (Decidable (a.id ≤ b.id))

instance : IsTotal Candidate candLe :=
  ⟨fun a b => Nat.le_total a.id b.id⟩

instance : IsTrans Candidate candLe :=
  ⟨fun _ _ _ hab hbc => Nat.le_trans hab hbc⟩

/-- The candidate rows in ascending-id order. -/
def candListById (cs : List Candidate) : List Candidate :=
  List.insertionSort candLe cs

/-- `candidates_with_counts()`: one `(id, name, count)` row per candidate,
ascending by id, with zero-vote candidates present via the left join. -/
def candidates_with_counts (db : DB) : List (Nat × String × Nat) :=
  (candListById db.candidates).map
    (fun c => (c.id, c.name, countFor db.votes c.id))

/-- The results ordering `sorted(rows, key=lambda x: (-x[2], x[0]))`:
larger count first, ascending id as tie-break. -/
def resultsRel (a b : Nat × String × Nat) : Prop :=
  b.2.2 < a.2.2 ∨ (a.2.2 = b.2.2 ∧ a.1 ≤ b.1)

instance : DecidableRel resultsRel :=
  fun a b =>
    inferInstanceAs (Decidable (b.2.2 < a.2.2 ∨ (a.2.2 = b.2.2 ∧ a.1 ≤ b.1)))

instance : IsTotal (Nat × String × Nat) resultsRel :=
  ⟨by intro a b; unfold resultsRel; omega⟩

instance : IsTrans (Nat × String × Nat) resultsRel :=
  ⟨by intro a b c; unfold resultsRel; omega⟩

/-- The descending rows of `results_text_and_buttons`. -/
def results_sorted (db : DB) : List (Nat × String × Nat) :=
  List.insertionSort resultsRel (candidates_with_counts db)

/-- The percentage `(cnt / total) * 100 if total > 0 else 0`, as the exact
rational the code truncates for display (`int(...)` is presentation). -/
def ratePct (cnt total : Nat) : ℚ :=
  if 0 < total then ((cnt : ℚ) / (total : ℚ)) * 100 else 0

/-! ## Candidate removal (`st_rm_candidate`) -/

/-- Deleting a candidate row; `ON DELETE CASCADE` also removes the vote
rows referencing it. -/
def deleteCandidateCascade (db : DB) (cid : Nat) : DB :=
  { db with
    candidates := db.candidates.filter (fun c => !(c.id == cid)),
    votes := db.votes.filter (fun r => !(r.candidate_id == cid)) }

/-- Outcome of the numeric branch of `st_rm_candidate`. -/
inductive RemoveOutcome where
  | removedById (id : Nat)
  | removedByRank (n : Nat) (id : Nat) (name : String)
  | rankNotFound
deriving DecidableEq

/-- The digit branch of `st_rm_candidate`: first `DELETE FROM candidates
WHERE id=$1`; if that deleted a row we are done, otherwise re-read the
candidate at `OFFSET n-1 LIMIT 1` in ascending-id order and delete it,
reporting not-found when there is no such row.  (Faithful for inputs
`1 ≤ n`; the real code would error on `n = 0` via a negative `OFFSET`.) -/
def st_rm_candidate_digit (db : DB) (n : Nat) : RemoveOutcome × DB :=
  if db.candidates.any (fun c => c.id == n) then
    (RemoveOutcome.removedById n, deleteCandidateCascade db n)
  else
    match ((candListById db.candidates).drop (n - 1)).head? with
    | none => (RemoveOutcome.rankNotFound, db)
    | some c =>
      (RemoveOutcome.removedByRank n c.id c.name,
       deleteCandidateCascade db c.id)

/-- The name branch of `st_rm_candidate`:
`DELETE FROM candidates WHERE LOWER(name)=LOWER($1)`, reporting whether
anything was deleted. -/
def st_rm_candidate_name (db : DB) (raw : String) : Bool × DB :=
  let victims := db.candidates.filter (fun c => c.name.toLower == raw.toLower)
  (!victims.isEmpty,
   { db with
     candidates :=
       db.candidates.filter (fun c => !(c.name.toLower == raw.toLower)),
     votes :=
       db.votes.filter
         (fun r => !(victims.any (fun c => c.id == r.candidate_id))) })

/-! ## Remaining admin mutations -/

/-- `INSERT INTO channels(chat_id, join_url) VALUES($1,$2) ON CONFLICT
(chat_id) DO UPDATE SET join_url=EXCLUDED.join_url`. -/
def channelUpsert (chs : List Channel) (chat : String) (url : Option String) :
    List Channel :=
  if chs.any (fun c => c.chat_id == chat) then
    chs.map (fun c => if c.chat_id == chat then ⟨chat, url⟩ else c)
  else
    chs ++ [⟨chat, url⟩]

/-- One iteration of the bulk-add loop of `add_candidates_auto`: a
case-insensitive existence check, then `INSERT INTO candidates(name)` or
a bump of the skipped counter. -/
def bulkStep (acc : DB × Nat × Nat) (name : String) : DB × Nat × Nat :=
  let d := acc.1
  if d.candidates.any (fun c => c.name.toLower == name.toLower) then
    (d, acc.2.1, acc.2.2 + 1)
  else
    ({ d with
       candidates := d.candidates ++ [⟨d.nextCandId, name⟩],
       nextCandId := d.nextCandId + 1 },
     acc.2.1 + 1, acc.2.2)

/-- The bulk-add loop of `add_candidates_auto`; returns the new state and
the (added, skipped) counters. -/
def bulk_add (db : DB) (names : List String) : DB × Nat × Nat :=
  names.foldl bulkStep (db, 0, 0)

/-- The `timer_stop` admin action: `set_setting("end_time_utc",
now_utc().isoformat())` — the deadline becomes the current instant, the
settings row is kept. -/
def timer_stop (fmt : Nat → String) (db : DB) (now : Nat) : DB :=
  { db with settings := set_setting db.settings "end_time_utc" (some (fmt now)) }

/-- `set_setting("end_time_utc", None)`: the `value is None` branch of
`set_setting`, deleting the deadline row (the spec's `clear`). -/
def clear_timer (settings : List (String × String)) :
    List (String × String) :=
  set_setting settings "end_time_utc" none

/-- The accepting branch of `st_set_timer`: for `minutes > 0` store
`now + timedelta(minutes=minutes)`; a non-positive or non-numeric input
leaves the settings unchanged (only an error message is sent). -/
def st_set_timer_apply (fmt : Nat → String)
    (settings : List (String × String)) (minutes now : Nat) :
    List (String × String) :=
  if minutes == 0 then settings
  else set_setting settings "end_time_utc" (some (fmt (now + 60 * minutes)))

/-! ## Admin entry points and their authorization guards -/

/-- What a handler sends back: `message` for any ordinary
`answer(...)` text (contents are presentation and collapsed), and
`alertDenied` for the `c.answer("Кириш йўқ", show_alert=True)` rejection. -/
inductive Reply where
  | message
  | alertDenied
deriving DecidableEq

/-- `/admin`: non-admins are ignored silently, admins get the panel. -/
def cmd_admin (uid : Int) (db : DB) : DB × List Reply :=
  if is_admin uid then (db, [Reply.message]) else (db, [])

/-- The `a:...` callback actions of the admin panel. -/
inductive AdminAction where
  | back
  | addChannel
  | rmChannel
  | listChannels
  | addCandidate
  | rmCandidate
  | listCandidates
  | setTimer
  | timerStop
  | resetVotes
  | exportCsv
  | results
  | unknown
deriving DecidableEq

/-- `cb_admin_actions`: non-admins get the explicit "Кириш йўқ" alert and
nothing happens; for admins only `timer_stop` (deadline := now) and
`reset_votes` (`TRUNCATE votes`) touch the database, every other action
just answers or arms an input state. -/
def cb_admin_actions (fmt : Nat → String) (uid : Int) (act : AdminAction)
    (now : Nat) (db : DB) : DB × List Reply :=
  if is_admin uid then
    match act with
    | AdminAction.timerStop => (timer_stop fmt db now, [Reply.message])
    | AdminAction.resetVotes => ({ db with votes := [] }, [Reply.message])
    | _ => (db, [Reply.message])
  else
    (db, [Reply.alertDenied])

/-- `st_add_channel`: non-admins only get their input state cleared
(silent); for admins `norm` is the result of `normalize_channel_input`
(`none` models the `ValueError` branch). -/
def st_add_channel (uid : Int) (norm : Option (String × Option String))
    (db : DB) : DB × List Reply :=
  if is_admin uid then
    match norm with
    | none => (db, [Reply.message])
    | some (chat, url) =>
      ({ db with channels := channelUpsert db.channels chat url },
       [Reply.message])
  else
    (db, [])

/-- `st_rm_channel`: `DELETE FROM channels WHERE chat_id=$1`; silent for
non-admins. -/
def st_rm_channel (uid : Int) (chat : String) (db : DB) : DB × List Reply :=
  if is_admin uid then
    ({ db with channels := db.channels.filter (fun c => !(c.chat_id == chat)) },
     [Reply.message])
  else
    (db, [])

/-- Input of `st_rm_candidate`: a digit string or a candidate name. -/
inductive RmInput where
  | digit (n : Nat)
  | name (s : String)

/-- `st_rm_candidate`: digit inputs go through the id-then-rank removal,
anything else through the case-insensitive name removal; silent for
non-admins. -/
def st_rm_candidate (uid : Int) (input : RmInput) (db : DB) :
    DB × List Reply :=
  if is_admin uid then
    match input with
    | RmInput.digit n => ((st_rm_candidate_digit db n).2, [Reply.message])
    | RmInput.name s => ((st_rm_candidate_name db s).2, [Reply.message])
  else
    (db, [])

/-- `st_set_timer`: `raw = none` models a non-digit input; silent for
non-admins. -/
def st_set_timer (fmt : Nat → String) (uid : Int) (raw : Option Nat)
    (now : Nat) (db : DB) : DB × List Reply :=
  if is_admin uid then
    match raw with
    | none => (db, [Reply.message])
    | some minutes =>
      ({ db with settings := st_set_timer_apply fmt db.settings minutes now },
       [Reply.message])
  else
    (db, [])

/-- `add_candidates_auto` (bulk add, fires for users in
`ADD_CANDIDATE_MODE`): non-admins are dropped from the mode set silently;
`names` are the stripped non-empty lines of the message. -/
def add_candidates_auto (uid : Int) (names : List String) (db : DB) :
    DB × List Reply :=
  if is_admin uid then
    ((bulk_add db (names.filter (fun s => !(s == "")))).1, [Reply.message])
  else
    (db, [])

/-! ## The operations of the session, for the window state machine -/

/-- Every database-mutating operation reachable from the handlers, plus
the `set_setting(..., None)` capability (the spec's `clear`). -/
inductive Op where
  | opVote (oracle : String → Int → OracleReply) (uid : Int)
      (payload : Option Nat)
  | opTimerStop
  | opSetTimer (minutes : Nat)
  | opClearTimer
  | opResetVotes
  | opBulkAdd (names : List String)
  | opRmDigit (n : Nat)
  | opRmName (s : String)
  | opAddChannel (chat : String) (url : Option String)
  | opRmChannel (chat : String)

/-- Apply one operation at time `t`. -/
def applyOp (parse : String → Option Nat) (fmt : Nat → String) (t : Nat) :
    Op → DB → DB
  | Op.opVote oracle uid payload, db => (cb_vote oracle parse db uid payload t).2
  | Op.opTimerStop, db => timer_stop fmt db t
  | Op.opSetTimer m, db =>
    { db with settings := st_set_timer_apply fmt db.settings m t }
  | Op.opClearTimer, db => { db with settings := clear_timer db.settings }
  | Op.opResetVotes, db => { db with votes := [] }
  | Op.opBulkAdd names, db => (bulk_add db names).1
  | Op.opRmDigit n, db => (st_rm_candidate_digit db n).2
  | Op.opRmName s, db => (st_rm_candidate_name db s).2
  | Op.opAddChannel chat url, db =>
    { db with channels := channelUpsert db.channels chat url }
  | Op.opRmChannel chat, db =>
    { db with channels := db.channels.filter (fun c => !(c.chat_id == chat)) }

/-! ## Concrete material for witnesses and counterexamples -/

/-- A concrete, decidably evaluable stand-in for `fromisoformat`:
a non-empty string of `n + 1` letters `x` decodes to the timestamp `n`;
everything else fails to parse. -/
def parseW (s : String) : Option Nat :=
  if s.data.all (fun c => c == 'x') && s.data.length != 0 then
    some (s.data.length - 1)
  else
    none

/-- The matching stand-in for `isoformat`: always non-empty. -/
def fmtW (n : Nat) : String := String.mk (List.replicate (n + 1) 'x')

theorem parseW_fmtW (x : Nat) : parseW (fmtW x) = some x := by
  unfold parseW fmtW
  simp [List.all_eq_true, List.mem_replicate]

theorem fmtW_ne (x : Nat) : fmtW x ≠ "" := by
  intro h
  have h2 := congrArg String.data h
  simp [fmtW] at h2

/-- An oracle whose every call raises. -/
def oracleFail : String → Int → OracleReply := fun _ _ => OracleReply.failure

/-- An oracle reporting full membership everywhere. -/
def oracleMember : String → Int → OracleReply :=
  fun _ _ => OracleReply.status "member"

/-- The empty database right after `init_db`. -/
def DB0 : DB := ⟨[], [], [], [], 1⟩

/-- One gating channel, one candidate, deadline stored as `"xx"`
(timestamp `1` under `parseW`). -/
def dbGate : DB :=
  ⟨[⟨"@gate", none⟩], [⟨1, "A"⟩], [], [("end_time_utc", "xx")], 2⟩

/-- Candidates `[(5, "Ali"), (9, "Vali")]` of the rank-removal example. -/
def dbRank : DB := ⟨[], [⟨5, "Ali"⟩, ⟨9, "Vali"⟩], [], [], 10⟩

/-- Registry {A, B, C} with ballots v1→A, v2→A, v3→B. -/
def dbTally : DB :=
  ⟨[], [⟨1, "A"⟩, ⟨2, "B"⟩, ⟨3, "C"⟩],
   [⟨1, 1, 0⟩, ⟨2, 1, 0⟩, ⟨3, 2, 0⟩], [], 4⟩

/-! ## Helper lemmas -/

theorem get_setting_map_update (k v : String) :
    ∀ s : List (String × String), s.any (fun kv => kv.1 == k) = true →
      get_setting (s.map (fun kv => if kv.1 == k then (k, v) else kv)) k =
        some v
  | [], h => by simp at h
  | kv :: rest, h => by
    by_cases hk : kv.1 == k
    · simp [get_setting, List.find?, hk]
    · simp only [List.any_cons, hk, Bool.false_or] at h
      simpa [get_setting, List.find?, hk] using
        get_setting_map_update k v rest h

theorem get_setting_append_fresh (k v : String) :
    ∀ s : List (String × String), s.any (fun kv => kv.1 == k) = false →
      get_setting (s ++ [(k, v)]) k = some v
  | [], _ => by simp [get_setting]
  | kv :: rest, h => by
    simp only [List.any_cons, Bool.or_eq_false_iff] at h
    simp only [get_setting, List.cons_append, List.find?, h.1]
    exact get_setting_append_fresh k v rest h.2

theorem get_setting_set_same (s : List (String × String)) (k v : String) :
    get_setting (set_setting s k (some v)) k = some v := by
  simp only [set_setting]
  by_cases h : s.any (fun kv => kv.1 == k)
  · rw [if_pos h]
    exact get_setting_map_update k v s h
  · rw [if_neg h]
    rw [Bool.not_eq_true] at h
    exact get_setting_append_fresh k v s h

theorem get_setting_set_none (s : List (String × String)) (k : String) :
    get_setting (set_setting s k none) k = none := by
  show get_setting (s.filter (fun kv => !(kv.1 == k))) k = none
  induction s with
  | nil => rfl
  | cons kv rest ih =>
    by_cases hk : (kv.1 == k) = true
    · simp only [List.filter, hk, Bool.not_true]
      exact ih
    · rw [Bool.not_eq_true] at hk
      simp only [List.filter, hk, Bool.not_false]
      simp only [get_setting, List.find?, hk]
      exact ih

theorem votesFor_eq_nil (votes : List VoteRow) (uid : Int)
    (h : votes.any (fun r => r.user_id == uid) = false) :
    votesFor votes uid = [] := by
  induction votes with
  | nil => rfl
  | cons r rest ih =>
    simp only [List.any_cons, Bool.or_eq_false_iff] at h
    simp only [votesFor, List.filter, h.1]
    exact ih h.2

theorem votesFor_map_replace (uid : Int) (cid now : Nat) :
    ∀ votes : List VoteRow, UniqueUsers votes →
      votes.any (fun r => r.user_id == uid) = true →
      votesFor
        (votes.map
          (fun r => if r.user_id == uid then (⟨uid, cid, now⟩ : VoteRow) else r))
        uid = [⟨uid, cid, now⟩]
  | [], _, h => by simp at h
  | r :: rest, hu, h => by
    rcases List.pairwise_cons.mp hu with ⟨hr, hrest⟩
    by_cases hru : (r.user_id == uid) = true
    · have hnone : rest.any (fun q => q.user_id == uid) = false := by
        rw [List.any_eq_false]
        intro q hq
        have hne := hr q hq
        simp only [beq_iff_eq] at hru ⊢
        omega
      have hnone2 := List.any_eq_false.mp hnone
      have hmap : rest.map
          (fun q => if q.user_id == uid then (⟨uid, cid, now⟩ : VoteRow) else q)
          = rest := by
        have h2 : ∀ q ∈ rest,
            (if q.user_id == uid then (⟨uid, cid, now⟩ : VoteRow) else q) = q := by
          intro q hq
          have h3 := hnone2 q hq
          simp only [Bool.not_eq_true] at h3
          simp [h3]
        exact (List.map_congr_left h2).trans (List.map_id rest)
      rw [List.map_cons, if_pos hru, hmap]
      show List.filter (fun q => q.user_id == uid)
        ((⟨uid, cid, now⟩ : VoteRow) :: rest) = [⟨uid, cid, now⟩]
      rw [List.filter_cons_of_pos (by simp)]
      rw [show List.filter (fun q : VoteRow => q.user_id == uid) rest = []
        from votesFor_eq_nil rest uid hnone]
    · rw [Bool.not_eq_true] at hru
      have h2 : rest.any (fun q => q.user_id == uid) = true := by
        simpa [List.any_cons, hru] using h
      have hstep := votesFor_map_replace uid cid now rest hrest h2
      show List.filter (fun q => q.user_id == uid)
        (List.map
          (fun q => if q.user_id == uid then (⟨uid, cid, now⟩ : VoteRow) else q)
          (r :: rest)) = _
      rw [List.map_cons, if_neg (by simp [hru]),
        List.filter_cons_of_neg (by simp [hru])]
      exact hstep

theorem castUpsert_votesFor (votes : List VoteRow) (uid : Int)
    (cid now : Nat) (hu : UniqueUsers votes) :
    votesFor (castUpsert votes uid cid now) uid =
      [⟨uid, cid, now⟩] := by
  unfold castUpsert
  by_cases h : votes.any (fun r => r.user_id == uid)
  · rw [if_pos h]
    exact votesFor_map_replace uid cid now votes hu h
  · rw [if_neg h]
    rw [Bool.not_eq_true] at h
    simp only [votesFor, List.filter_append]
    rw [show (List.filter (fun r => r.user_id == uid) votes) = [] from
      votesFor_eq_nil votes uid h]
    simp [List.filter]

theorem castUpsert_unique (votes : List VoteRow) (uid : Int)
    (cid now : Nat) (hu : UniqueUsers votes) :
    UniqueUsers (castUpsert votes uid cid now) := by
  unfold castUpsert
  by_cases h : votes.any (fun r => r.user_id == uid)
  · rw [if_pos h]
    unfold UniqueUsers at hu ⊢
    refine (List.pairwise_map).mpr ?_
    refine hu.imp_of_mem ?_
    intro a b ha hb hab
    by_cases hau : a.user_id == uid <;> by_cases hbu : b.user_id == uid <;>
      simp_all [beq_iff_eq]
  · rw [if_neg h]
    rw [Bool.not_eq_true] at h
    unfold UniqueUsers at hu ⊢
    rw [List.pairwise_append]
    refine ⟨hu, List.pairwise_singleton _ _, ?_⟩
    intro a ha b hb
    rw [List.any_eq_false] at h
    have := h a ha
    simp only [List.mem_singleton] at hb
    subst hb
    simpa using this

theorem cb_vote_settings (oracle : String → Int → OracleReply)
    (parse : String → Option Nat) (db : DB) (uid : Int)
    (payload : Option Nat) (now : Nat) :
    (cb_vote oracle parse db uid payload now).2.settings = db.settings := by
  unfold cb_vote
  by_cases h1 : is_subscribed oracle uid (get_channels db)
  · by_cases h2 : voting_is_open parse db.settings now
    · cases payload with
      | none => simp [h1, h2]
      | some cid =>
        by_cases h3 : db.candidates.any (fun c => c.id == cid) <;>
          simp [h1, h2, h3]
    · simp [h1, h2]
  · simp [h1]

/-! ## C4: the window-open predicate -/

/-- C4: `voting_is_open` returns true iff no deadline is configured (the
end-time read is `none`) or the current time is strictly before the
configured deadline; a current time equal to the deadline is closed. -/
theorem C4_is_open_iff (parse : String → Option Nat)
    (settings : List (String × String)) (now : Nat) :
    (voting_is_open parse settings now = true ↔
      get_end_time parse settings = none ∨
        ∃ e, get_end_time parse settings = some e ∧ now < e) ∧
    (∀ e, get_end_time parse settings = some e →
      voting_is_open parse settings e = false) := by
  constructor
  · cases h : get_end_time parse settings with
    | none => simp [voting_is_open, h]
    | some e => simp [voting_is_open, h]
  · intro e he
    simp [voting_is_open, he]

/-- Witness for C4: a deadline of `2` closes the window at time `2`
exactly, and with no settings row the window is open. -/
theorem C4_witness :
    voting_is_open parseW [("end_time_utc", "xxx")] 2 = false ∧
    voting_is_open parseW [] 5 = true :=
  ⟨(C4_is_open_iff parseW [("end_time_utc", "xxx")] 2).2 2 (by decide),
   (C4_is_open_iff parseW [] 5).1.mpr (Or.inl (by decide))⟩

/-! ## C10: corrupt deadline data fails open -/

/-- C10: a stored `end_time_utc` value that is the empty string or does
not parse as a timestamp is treated as no deadline, and the window
reports open. -/
theorem C10_corrupt_deadline_fails_open (parse : String → Option Nat)
    (settings : List (String × String)) (now : Nat) (s : String)
    (hs : get_setting settings "end_time_utc" = some s)
    (hbad : s = "" ∨ parse s = none) :
    get_end_time parse settings = none ∧
      voting_is_open parse settings now = true := by
  have h1 : get_end_time parse settings = none := by
    unfold get_end_time
    rw [hs]
    rcases hbad with h | h
    · simp [h]
    · by_cases he : s = "" <;> simp [he, h]
  exact ⟨h1, by simp [voting_is_open, h1]⟩

/-- Witness for C10: with the stored value `"garbage"` (unparsable), the
window is open. -/
theorem C10_witness :
    get_end_time parseW [("end_time_utc", "garbage")] = none ∧
      voting_is_open parseW [("end_time_utc", "garbage")] 9 = true :=
  C10_corrupt_deadline_fails_open parseW [("end_time_utc", "garbage")] 9
    "garbage" (by decide) (Or.inr (by decide))

/-! ## C3: the eligibility gate is fail-closed and short-circuiting -/

/-- C3: with no configured channels every voter is eligible; otherwise the
check succeeds exactly when every configured channel's oracle query
succeeds with a status other than `left`/`kicked`; and as soon as one
channel fails (oracle error or non-member status) the result is `false`
independently of the oracle's behaviour on the remaining channels. -/
theorem C3_is_subscribed_spec :
    (∀ (oracle : String → Int → OracleReply) (uid : Int),
      is_subscribed oracle uid [] = true) ∧
    (∀ (oracle : String → Int → OracleReply) (uid : Int) (chs : List String),
      is_subscribed oracle uid chs = true ↔ ∀ ch ∈ chs, oracleOk oracle uid ch) ∧
    (∀ (oracle oracle2 : String → Int → OracleReply) (uid : Int)
      (pre : List String) (ch : String) (post : List String),
      (∀ c ∈ pre, oracleOk oracle uid c) →
      (oracle ch uid = OracleReply.failure ∨
        ∃ s, oracle ch uid = OracleReply.status s ∧ statusNotMember s = true) →
      (∀ c ∈ pre, oracle2 c uid = oracle c uid) →
      oracle2 ch uid = oracle ch uid →
      is_subscribed oracle2 uid (pre ++ ch :: post) = false) := by
  refine ⟨fun _ _ => rfl, ?_, ?_⟩
  · intro oracle uid chs
    induction chs with
    | nil => simp [is_subscribed, oracleOk]
    | cons ch rest ih =>
      cases h : oracle ch uid with
      | failure =>
        simp only [is_subscribed, h]
        constructor
        · intro hfalse; exact absurd hfalse (by simp)
        · intro hall
          rcases hall ch (by simp) with ⟨s, hs, _⟩
          rw [h] at hs; exact absurd hs (by simp)
      | status s =>
        by_cases hm : statusNotMember s
        · simp only [is_subscribed, h, hm, if_true]
          constructor
          · intro hfalse; exact absurd hfalse (by simp)
          · intro hall
            rcases hall ch (by simp) with ⟨s2, hs2, hm2⟩
            rw [h] at hs2
            cases hs2
            rw [hm] at hm2
            exact absurd hm2 (by simp)
        · rw [Bool.not_eq_true] at hm
          have hstep : is_subscribed oracle uid (ch :: rest) =
              is_subscribed oracle uid rest := by
            simp [is_subscribed, h, hm]
          rw [hstep, ih, List.forall_mem_cons]
          exact ⟨fun hall => ⟨⟨s, h, hm⟩, hall⟩, fun hall => hall.2⟩
  · intro oracle oracle2 uid pre ch post hok hfail hagree hagree2
    induction pre with
    | nil =>
      rcases hfail with h | ⟨s, hs, hm⟩
      · simp [is_subscribed, hagree2, h]
      · simp [is_subscribed, hagree2, hs, hm]
    | cons c rest ih =>
      rcases hok c (by simp) with ⟨s, hs, hm⟩
      have h2 : oracle2 c uid = OracleReply.status s := by
        rw [hagree c (by simp), hs]
      simp only [List.cons_append, is_subscribed, h2, hm, if_false]
      exact ih (fun x hx => hok x (by simp [hx]))
        (fun x hx => hagree x (by simp [hx]))

/-- Witness for C3: one passing channel followed by an erroring one makes
the voter ineligible, whatever the oracle would say about the third. -/
theorem C3_witness :
    is_subscribed
      (fun ch _ => if ch = "@a" then OracleReply.status "member"
        else OracleReply.failure) 7 (["@a"] ++ "@b" :: ["@c"]) = false :=
  C3_is_subscribed_spec.2.2
    (fun ch _ => if ch = "@a" then OracleReply.status "member"
      else OracleReply.failure)
    (fun ch _ => if ch = "@a" then OracleReply.status "member"
      else OracleReply.failure)
    7 ["@a"] "@b" ["@c"]
    (by
      intro c hc
      simp only [List.mem_singleton] at hc
      subst hc
      exact ⟨"member", by decide, by decide⟩)
    (Or.inl (by decide))
    (fun c _ => rfl) rfl

/-! ## C1: at most one ballot per voter, last cast wins -/

theorem castSeq_spec (uid : Int) :
    ∀ (ops : List (Nat × Nat)) (votes : List VoteRow),
      UniqueUsers votes → ∀ h : ops ≠ [],
      votesFor (castSeq votes uid ops) uid =
        [⟨uid, (ops.getLast h).1, (ops.getLast h).2⟩] ∧
      UniqueUsers (castSeq votes uid ops)
  | [], _, _, h => absurd rfl h
  | [(cid, t)], votes, hu, _ =>
    ⟨castUpsert_votesFor votes uid cid t hu,
     castUpsert_unique votes uid cid t hu⟩
  | (cid, t) :: op2 :: rest, votes, hu, _ => by
    have ih := castSeq_spec uid (op2 :: rest) (castUpsert votes uid cid t)
      (castUpsert_unique votes uid cid t hu) (by simp)
    refine ⟨?_, ih.2⟩
    rw [show castSeq votes uid ((cid, t) :: op2 :: rest) =
      castSeq (castUpsert votes uid cid t) uid (op2 :: rest) from rfl]
    rw [ih.1, List.getLast_cons (a := (cid, t))]

/-- C1: after any non-empty sequence of successful casts by one voter,
starting from any vote table whose rows have distinct voters, the table
holds exactly one row for that voter, carrying the candidate id and
timestamp of the last cast; a re-cast rewrites the row in place without
growing the table. -/
theorem C1_at_most_one_ballot (votes : List VoteRow) (uid : Int)
    (ops : List (Nat × Nat)) (hu : UniqueUsers votes) (h : ops ≠ []) :
    votesFor (castSeq votes uid ops) uid =
      [⟨uid, (ops.getLast h).1, (ops.getLast h).2⟩] ∧
    UniqueUsers (castSeq votes uid ops) ∧
    (∀ cid t, votes.any (fun r => r.user_id == uid) = true →
      (castUpsert votes uid cid t).length = votes.length) := by
  refine ⟨(castSeq_spec uid ops votes hu h).1,
    (castSeq_spec uid ops votes hu h).2, ?_⟩
  intro cid t hany
  simp [castUpsert, hany]

/-- Witness for C1: voter 7 casts for candidate 1 at time 10, then for
candidate 2 at time 20; a single row (7, 2, 20) remains next to voter 5's
untouched ballot. -/
theorem C1_witness :
    votesFor (castSeq [⟨5, 1, 3⟩] 7 [(1, 10), (2, 20)]) 7 = [⟨7, 2, 20⟩] ∧
      UniqueUsers (castSeq [⟨5, 1, 3⟩] 7 [(1, 10), (2, 20)]) := by
  have h := C1_at_most_one_ballot [⟨5, 1, 3⟩] 7 [(1, 10), (2, 20)]
    (by simp [UniqueUsers]) (by simp)
  exact ⟨h.1, h.2.1⟩

/-! ## C2: the order of checks in `cb_vote` -/

/-- C2 (amended): `cb_vote` short-circuits in the order (1) eligibility —
failing with `notEligible`; (2) window — failing with `votingClosed`;
(3) candidate existence — failing with `noSuchCandidate`; (4) the upsert,
after which the updated vote table is what the refreshed display derives
from.  (The spec claims the window check precedes the eligibility check;
the code does the opposite.) -/
theorem C2_cb_vote_order (oracle : String → Int → OracleReply)
    (parse : String → Option Nat) (db : DB) (uid : Int) (cid now : Nat) :
    (is_subscribed oracle uid (get_channels db) = false →
      cb_vote oracle parse db uid (some cid) now =
        (VoteOutcome.notEligible, db)) ∧
    (is_subscribed oracle uid (get_channels db) = true →
      voting_is_open parse db.settings now = false →
      cb_vote oracle parse db uid (some cid) now =
        (VoteOutcome.votingClosed, db)) ∧
    (is_subscribed oracle uid (get_channels db) = true →
      voting_is_open parse db.settings now = true →
      db.candidates.any (fun c => c.id == cid) = false →
      cb_vote oracle parse db uid (some cid) now =
        (VoteOutcome.noSuchCandidate, db)) ∧
    (is_subscribed oracle uid (get_channels db) = true →
      voting_is_open parse db.settings now = true →
      db.candidates.any (fun c => c.id == cid) = true →
      cb_vote oracle parse db uid (some cid) now =
        (VoteOutcome.accepted,
          { db with votes := castUpsert db.votes uid cid now })) := by
  refine ⟨?_, ?_, ?_, ?_⟩ <;> intro h1 <;>
    first
    | (intro h2 h3; simp [cb_vote, h1, h2, h3])
    | (intro h2; simp [cb_vote, h1, h2])
    | simp [cb_vote, h1]

/-- Counterexample to C2 as stated: with the window closed and the voter
ineligible, the failure reported is `notEligible`, not `votingClosed` —
the eligibility check runs before the window check. -/
theorem C2_counterexample :
    voting_is_open parseW dbGate.settings 5 = false ∧
    is_subscribed oracleFail 7 (get_channels dbGate) = false ∧
    (cb_vote oracleFail parseW dbGate 7 (some 1) 5).1 =
      VoteOutcome.notEligible ∧
    (cb_vote oracleFail parseW dbGate 7 (some 1) 5).1 ≠
      VoteOutcome.votingClosed := by
  refine ⟨by decide, by decide, by decide, by decide⟩

/-- Witness for C2: an eligible voter, open window and existing candidate
reach the upsert. -/
theorem C2_witness :
    cb_vote oracleMember parseW dbGate 7 (some 1) 0 =
      (VoteOutcome.accepted,
        { dbGate with votes := castUpsert dbGate.votes 7 1 0 }) :=
  (C2_cb_vote_order oracleMember parseW dbGate 7 1 0).2.2.2
    (by decide) (by decide) (by decide)

/-! ## C5: force-close gates every later cast -/

theorem voting_is_open_of_none (parse : String → Option Nat)
    (settings : List (String × String)) (now : Nat)
    (h : get_end_time parse settings = none) :
    voting_is_open parse settings now = true := by
  unfold voting_is_open
  rw [h]

theorem voting_is_open_of_some (parse : String → Option Nat)
    (settings : List (String × String)) (now e : Nat)
    (h : get_end_time parse settings = some e) :
    voting_is_open parse settings now = decide (now < e) := by
  unfold voting_is_open
  rw [h]

theorem get_end_time_set_some (parse : String → Option Nat)
    (fmt : Nat → String) (settings : List (String × String)) (d : Nat)
    (hrt : parse (fmt d) = some d) (hne : fmt d ≠ "") :
    get_end_time parse
      (set_setting settings "end_time_utc" (some (fmt d))) = some d := by
  unfold get_end_time
  rw [get_setting_set_same]
  show (if fmt d = "" then none else parse (fmt d)) = some d
  rw [if_neg hne, hrt]

theorem open_iff_set_deadline (parse : String → Option Nat)
    (fmt : Nat → String) (settings : List (String × String)) (d tq : Nat)
    (hrt : parse (fmt d) = some d) (hne : fmt d ≠ "") :
    voting_is_open parse
      (set_setting settings "end_time_utc" (some (fmt d))) tq =
      decide (tq < d) :=
  voting_is_open_of_some parse _ tq d
    (get_end_time_set_some parse fmt settings d hrt hne)

theorem closed_persists (parse : String → Option Nat)
    (settings : List (String × String)) (t tq : Nat) (hle : t ≤ tq)
    (h : voting_is_open parse settings t = false) :
    voting_is_open parse settings tq = false := by
  cases he : get_end_time parse settings with
  | none =>
    rw [voting_is_open_of_none parse settings t he] at h
    exact absurd h (by simp)
  | some e =>
    rw [voting_is_open_of_some parse settings t e he] at h
    rw [voting_is_open_of_some parse settings tq e he]
    simp only [decide_eq_false_iff_not, not_lt] at h ⊢
    omega

/-- C5 (amended): `timer_stop` sets the deadline to the current instant
without deleting the setting; from then on, with a non-decreasing clock,
every subsequent cast fails and the database is left untouched — an
eligible voter fails with `votingClosed` regardless of the candidate's
validity, an ineligible one with `notEligible` — until the window is
re-opened.  (The spec's "VotingClosed regardless of eligibility" does not
hold: ineligible voters fail with `notEligible` first.) -/
theorem C5_force_close_gates (parse : String → Option Nat)
    (fmt : Nat → String) (db : DB) (t tq : Nat)
    (oracle : String → Int → OracleReply) (uid : Int) (payload : Option Nat)
    (hrt : parse (fmt t) = some t) (hne : fmt t ≠ "") (hle : t ≤ tq) :
    get_setting (timer_stop fmt db t).settings "end_time_utc" =
      some (fmt t) ∧
    voting_is_open parse (timer_stop fmt db t).settings tq = false ∧
    (cb_vote oracle parse (timer_stop fmt db t) uid payload tq).2 =
      timer_stop fmt db t ∧
    (is_subscribed oracle uid (get_channels (timer_stop fmt db t)) = true →
      (cb_vote oracle parse (timer_stop fmt db t) uid payload tq).1 =
        VoteOutcome.votingClosed) ∧
    (is_subscribed oracle uid (get_channels (timer_stop fmt db t)) = false →
      (cb_vote oracle parse (timer_stop fmt db t) uid payload tq).1 =
        VoteOutcome.notEligible) := by
  have hclosed : voting_is_open parse (timer_stop fmt db t).settings tq
      = false := by
    show voting_is_open parse
      (set_setting db.settings "end_time_utc" (some (fmt t))) tq = false
    rw [open_iff_set_deadline parse fmt db.settings t tq hrt hne]
    simp only [decide_eq_false_iff_not, not_lt]
    omega
  refine ⟨get_setting_set_same db.settings "end_time_utc" (fmt t),
    hclosed, ?_, ?_, ?_⟩
  · by_cases hs :
      is_subscribed oracle uid (get_channels (timer_stop fmt db t)) = true
    · simp [cb_vote, hs, hclosed]
    · rw [Bool.not_eq_true] at hs
      simp [cb_vote, hs]
  · intro hs
    simp [cb_vote, hs, hclosed]
  · intro hs
    simp [cb_vote, hs]

/-- Counterexample to C5 as stated: after `timer_stop`, a voter the
oracle rejects fails with `notEligible`, not `votingClosed`. -/
theorem C5_counterexample :
    voting_is_open parseW (timer_stop fmtW dbGate 1).settings 2 = false ∧
    (cb_vote oracleFail parseW (timer_stop fmtW dbGate 1) 7 (some 1) 2).1 =
      VoteOutcome.notEligible ∧
    (cb_vote oracleFail parseW (timer_stop fmtW dbGate 1) 7 (some 1) 2).1 ≠
      VoteOutcome.votingClosed := by
  refine ⟨by decide, by decide, by decide⟩

/-- Witness for C5: an eligible voter after `timer_stop` at time 1 gets
`votingClosed` at time 2 and the database is unchanged. -/
theorem C5_witness :
    (cb_vote oracleMember parseW (timer_stop fmtW dbGate 1) 7 (some 1) 2).1 =
      VoteOutcome.votingClosed ∧
    (cb_vote oracleMember parseW (timer_stop fmtW dbGate 1) 7 (some 1) 2).2 =
      timer_stop fmtW dbGate 1 := by
  have h := C5_force_close_gates parseW fmtW dbGate 1 2 oracleMember 7
    (some 1) (parseW_fmtW 1) (fmtW_ne 1) (by decide)
  exact ⟨h.2.2.2.1 (by decide), h.2.2.1⟩

/-! ## C6: the tally is live, complete, ordered, with exact percentages -/

/-- C6: the tally maps each registered candidate (and no others) to the
live count of its vote rows, so zero-vote candidates appear with count 0;
the results view is a permutation of it sorted descending by count with
ascending id as tie-break; the percentage is `count / total * 100`
(0 when the total is 0); and on registry {A, B, C} with ballots
v1→A, v2→A, v3→B the descending raw counts are [(A,2),(B,1),(C,0)]. -/
theorem C6_tally (db : DB) :
    ((candidates_with_counts db).length = db.candidates.length ∧
      ∀ c ∈ db.candidates,
        (c.id, c.name, countFor db.votes c.id) ∈ candidates_with_counts db) ∧
    ((results_sorted db).Perm (candidates_with_counts db) ∧
      (results_sorted db).Sorted resultsRel) ∧
    (∀ cnt, ratePct cnt 0 = 0) ∧
    (∀ cnt total, 0 < total →
      ratePct cnt total = ((cnt : ℚ) * 100) / (total : ℚ)) ∧
    (results_sorted dbTally).map (fun r => (r.1, r.2.2)) =
      [(1, 2), (2, 1), (3, 0)] := by
  refine ⟨⟨?_, ?_⟩, ⟨?_, ?_⟩, ?_, ?_, ?_⟩
  · unfold candidates_with_counts candListById
    rw [List.length_map]
    exact (List.perm_insertionSort candLe db.candidates).length_eq
  · intro c hc
    unfold candidates_with_counts
    refine List.mem_map.mpr ⟨c, ?_, rfl⟩
    exact (List.perm_insertionSort candLe db.candidates).mem_iff.mpr hc
  · exact List.perm_insertionSort resultsRel (candidates_with_counts db)
  · exact List.sorted_insertionSort resultsRel (candidates_with_counts db)
  · intro cnt
    simp [ratePct]
  · intro cnt total h
    rw [ratePct, if_pos h, div_mul_eq_mul_div]
  · decide

/-- Witness for C6: in the concrete registry, candidate A appears with
count 2 and the percentage of 2 out of 3 votes is 200/3. -/
theorem C6_witness :
    (1, "A", 2) ∈ candidates_with_counts dbTally ∧
      ratePct 2 3 = 200 / 3 := by
  refine ⟨(C6_tally dbTally).1.2 ⟨1, "A"⟩ (by decide), ?_⟩
  rw [(C6_tally dbTally).2.2.2.1 2 3 (by norm_num)]
  norm_num

/-! ## C7: digit-based candidate removal -/

/-- C7 (amended): the digit branch of candidate removal first deletes by
id when a candidate with id `n` exists; only otherwise does it delete the
`n`-th candidate (1-indexed) of the ascending-id ordering, reporting
not-found and deleting nothing when `n` exceeds the candidate count.
(The spec's unconditional rank semantics fails when `n` is an existing
id.) -/
theorem C7_remove_by_rank (db : DB) (n : Nat) (h1 : 1 ≤ n) :
    (candListById db.candidates).Sorted candLe ∧
    (candListById db.candidates).Perm db.candidates ∧
    (db.candidates.any (fun c => c.id == n) = true →
      st_rm_candidate_digit db n =
        (RemoveOutcome.removedById n, deleteCandidateCascade db n)) ∧
    (db.candidates.any (fun c => c.id == n) = false →
      ∀ c, (candListById db.candidates)[n - 1]? = some c →
        st_rm_candidate_digit db n =
          (RemoveOutcome.removedByRank n c.id c.name,
            deleteCandidateCascade db c.id)) ∧
    (db.candidates.any (fun c => c.id == n) = false →
      db.candidates.length < n →
      st_rm_candidate_digit db n = (RemoveOutcome.rankNotFound, db)) := by
  refine ⟨List.sorted_insertionSort candLe db.candidates,
    List.perm_insertionSort candLe db.candidates, ?_, ?_, ?_⟩
  · intro h
    simp [st_rm_candidate_digit, h]
  · intro h c hc
    rw [st_rm_candidate_digit, if_neg (by simp [h]), List.head?_drop, hc]
  · intro h hlen
    have hnone : (candListById db.candidates)[n - 1]? = none := by
      rw [List.getElem?_eq_none_iff]
      rw [show candListById db.candidates =
        List.insertionSort candLe db.candidates from rfl]
      rw [(List.perm_insertionSort candLe db.candidates).length_eq]
      omega
    rw [st_rm_candidate_digit, if_neg (by simp [h]), List.head?_drop, hnone]

/-- Counterexample to C7 as stated: on the 2-element list
[(5,"Ali"),(9,"Vali")], input 5 exceeds the count, so the claimed rank
semantics demands not-found; the code instead deletes candidate id 5. -/
theorem C7_counterexample :
    dbRank.candidates.length < 5 ∧
    (st_rm_candidate_digit dbRank 5).1 = RemoveOutcome.removedById 5 ∧
    (st_rm_candidate_digit dbRank 5).1 ≠ RemoveOutcome.rankNotFound ∧
    (st_rm_candidate_digit dbRank 5).2.candidates = [⟨9, "Vali"⟩] := by
  refine ⟨by decide, by decide, by decide, by decide⟩

/-- Witness for C7: the spec's own examples — input 2 deletes id 9, and
input 3 reports not-found on the 2-element list. -/
theorem C7_witness :
    st_rm_candidate_digit dbRank 2 =
      (RemoveOutcome.removedByRank 2 9 "Vali",
        deleteCandidateCascade dbRank 9) ∧
    st_rm_candidate_digit dbRank 3 = (RemoveOutcome.rankNotFound, dbRank) :=
  ⟨(C7_remove_by_rank dbRank 2 (by decide)).2.2.2.1 (by decide)
      ⟨9, "Vali"⟩ (by decide),
   (C7_remove_by_rank dbRank 3 (by decide)).2.2.2.2 (by decide) (by decide)⟩

/-! ## C8: `clear` re-opens; only `clear` or a future deadline re-open -/

theorem bulkStep_settings : ∀ (names : List String) (acc : DB × Nat × Nat),
    ((names.foldl bulkStep acc).1).settings = acc.1.settings
  | [], _ => rfl
  | name :: rest, acc => by
    rw [List.foldl_cons, bulkStep_settings rest (bulkStep acc name)]
    unfold bulkStep
    by_cases h : acc.1.candidates.any
        (fun c => c.name.toLower == name.toLower) <;>
      simp [h]

theorem st_rm_digit_settings (db : DB) (n : Nat) :
    (st_rm_candidate_digit db n).2.settings = db.settings := by
  unfold st_rm_candidate_digit
  by_cases h : db.candidates.any (fun c => c.id == n)
  · simp [h, deleteCandidateCascade]
  · rw [Bool.not_eq_true] at h
    cases hh : ((candListById db.candidates).drop (n - 1)).head? <;>
      simp [h, hh, deleteCandidateCascade]

theorem clear_timer_end_time (parse : String → Option Nat)
    (settings : List (String × String)) :
    get_end_time parse (clear_timer settings) = none := by
  unfold clear_timer get_end_time
  rw [get_setting_set_none settings "end_time_utc"]

theorem clear_timer_open (parse : String → Option Nat)
    (settings : List (String × String)) (now : Nat) :
    voting_is_open parse (clear_timer settings) now = true :=
  voting_is_open_of_none parse _ now (clear_timer_end_time parse settings)

theorem not_reopened (parse : String → Option Nat)
    (settings : List (String × String)) (t tq : Nat) (hle : t ≤ tq)
    (hclosed : voting_is_open parse settings t = false) :
    voting_is_open parse settings tq = true → False := by
  intro h
  rw [closed_persists parse settings t tq hle hclosed] at h
  exact absurd h (by simp)

/-- C8: `clear` (the `None` branch of `set_setting` on `end_time_utc`,
the spec's clear operation) deletes the deadline row entirely and the
window is open at every time afterwards; among all the session's
operations, a window closed at time `t` can be open at a later time `tq`
only after `clear` or after setting a timer whose deadline lies beyond
`tq`; and after `clear`, a cast by an eligible voter for an existing
candidate is accepted and recorded. -/
theorem C8_clear_reopens (parse : String → Option Nat) (fmt : Nat → String)
    (hrt : ∀ x, parse (fmt x) = some x) (hne : ∀ x, fmt x ≠ "") :
    (∀ settings : List (String × String),
      get_setting (clear_timer settings) "end_time_utc" = none ∧
      ∀ now, voting_is_open parse (clear_timer settings) now = true) ∧
    (∀ (op : Op) (t tq : Nat) (db : DB), t ≤ tq →
      voting_is_open parse db.settings t = false →
      voting_is_open parse (applyOp parse fmt t op db).settings tq = true →
      op = Op.opClearTimer ∨
        ∃ m, op = Op.opSetTimer m ∧ tq < t + 60 * m) ∧
    (∀ (oracle : String → Int → OracleReply) (db : DB) (uid : Int)
      (cid now : Nat),
      is_subscribed oracle uid (get_channels db) = true →
      db.candidates.any (fun c => c.id == cid) = true →
      cb_vote oracle parse
          { db with settings := clear_timer db.settings } uid (some cid)
          now =
        (VoteOutcome.accepted,
          { db with settings := clear_timer db.settings,
                    votes := castUpsert db.votes uid cid now })) := by
  refine ⟨?_, ?_, ?_⟩
  · intro settings
    exact ⟨get_setting_set_none settings "end_time_utc",
      fun now => clear_timer_open parse settings now⟩
  · intro op t tq db hle hclosed hopen
    cases op with
    | opVote oracle uid payload =>
      exfalso
      rw [show (applyOp parse fmt t (Op.opVote oracle uid payload) db).settings
        = db.settings from cb_vote_settings oracle parse db uid payload t]
        at hopen
      exact not_reopened parse db.settings t tq hle hclosed hopen
    | opTimerStop =>
      exfalso
      rw [show (applyOp parse fmt t Op.opTimerStop db).settings =
        set_setting db.settings "end_time_utc" (some (fmt t)) from rfl]
        at hopen
      rw [open_iff_set_deadline parse fmt db.settings t tq (hrt t) (hne t)]
        at hopen
      simp only [decide_eq_true_eq] at hopen
      omega
    | opSetTimer m =>
      by_cases hm : (m == 0) = true
      · exfalso
        rw [show (applyOp parse fmt t (Op.opSetTimer m) db).settings =
          st_set_timer_apply fmt db.settings m t from rfl] at hopen
        rw [st_set_timer_apply, if_pos hm] at hopen
        exact not_reopened parse db.settings t tq hle hclosed hopen
      · refine Or.inr ⟨m, rfl, ?_⟩
        rw [show (applyOp parse fmt t (Op.opSetTimer m) db).settings =
          st_set_timer_apply fmt db.settings m t from rfl] at hopen
        rw [st_set_timer_apply, if_neg hm] at hopen
        rw [open_iff_set_deadline parse fmt db.settings (t + 60 * m) tq
          (hrt (t + 60 * m)) (hne (t + 60 * m))] at hopen
        simpa using hopen
    | opClearTimer => exact Or.inl rfl
    | opResetVotes =>
      exact absurd hopen
        (by simpa using not_reopened parse db.settings t tq hle hclosed)
    | opBulkAdd names =>
      exfalso
      rw [show (applyOp parse fmt t (Op.opBulkAdd names) db).settings =
        db.settings from bulkStep_settings names (db, 0, 0)] at hopen
      exact not_reopened parse db.settings t tq hle hclosed hopen
    | opRmDigit n =>
      exfalso
      rw [show (applyOp parse fmt t (Op.opRmDigit n) db).settings =
        db.settings from st_rm_digit_settings db n] at hopen
      exact not_reopened parse db.settings t tq hle hclosed hopen
    | opRmName s =>
      exact absurd hopen
        (by simpa using not_reopened parse db.settings t tq hle hclosed)
    | opAddChannel chat url =>
      exact absurd hopen
        (by simpa using not_reopened parse db.settings t tq hle hclosed)
    | opRmChannel chat =>
      exact absurd hopen
        (by simpa using not_reopened parse db.settings t tq hle hclosed)
  · intro oracle db uid cid now hsub hcand
    have hopen : voting_is_open parse (clear_timer db.settings) now = true :=
      clear_timer_open parse db.settings now
    simp only [get_channels] at hsub
    simp [cb_vote, hsub, hopen, hcand, get_channels]

/-- Witness for C8: on the closed gated database, clearing the deadline
makes a later cast by an eligible voter for candidate 1 succeed. -/
theorem C8_witness :
    cb_vote oracleMember parseW
        { dbGate with settings := clear_timer dbGate.settings } 7 (some 1)
        99 =
      (VoteOutcome.accepted,
        { dbGate with settings := clear_timer dbGate.settings,
                      votes := castUpsert dbGate.votes 7 1 99 }) :=
  (C8_clear_reopens parseW fmtW parseW_fmtW fmtW_ne).2.2 oracleMember
    dbGate 7 1 99 (by decide) (by decide)

/-! ## C9: unauthorized admin calls mutate nothing, but rejection differs -/

/-- C9 (amended): every admin entry point invoked by a caller outside the
fixed administrator set leaves the entire persisted state untouched; the
rejection behaviour however is not uniform — the `/admin` command and the
message-input handlers ignore the caller silently, while the admin
callback buttons answer with an explicit "Кириш йўқ" denial alert. -/
theorem C9_unauthorized_frame (uid : Int) (h : is_admin uid = false) :
    (∀ db, cmd_admin uid db = (db, [])) ∧
    (∀ (fmt : Nat → String) (act : AdminAction) (now : Nat) (db : DB),
      cb_admin_actions fmt uid act now db = (db, [Reply.alertDenied])) ∧
    (∀ norm db, st_add_channel uid norm db = (db, [])) ∧
    (∀ chat db, st_rm_channel uid chat db = (db, [])) ∧
    (∀ input db, st_rm_candidate uid input db = (db, [])) ∧
    (∀ (fmt : Nat → String) (raw : Option Nat) (now : Nat) (db : DB),
      st_set_timer fmt uid raw now db = (db, [])) ∧
    (∀ names db, add_candidates_auto uid names db = (db, [])) := by
  refine ⟨fun db => ?_, fun fmt act now db => ?_, fun norm db => ?_,
    fun chat db => ?_, fun input db => ?_, fun fmt raw now db => ?_,
    fun names db => ?_⟩ <;>
    simp [cmd_admin, cb_admin_actions, st_add_channel, st_rm_channel,
      st_rm_candidate, st_set_timer, add_candidates_auto, h]

/-- Counterexample to C9 as stated: the rejection behaviour is not the
same across entry points — `/admin` answers nothing to caller 0 while the
admin callback answers a denial alert. -/
theorem C9_counterexample :
    is_admin 0 = false ∧
    (cmd_admin 0 DB0).2 = [] ∧
    (cb_admin_actions fmtW 0 AdminAction.back 0 DB0).2 =
      [Reply.alertDenied] ∧
    (cmd_admin 0 DB0).2 ≠ (cb_admin_actions fmtW 0 AdminAction.back 0 DB0).2
    := by
  refine ⟨by decide, by decide, by decide, by decide⟩

/-- Witness for C9: the non-admin caller 0 cannot remove a candidate, and
the database is unchanged. -/
theorem C9_witness :
    st_rm_candidate 0 (RmInput.digit 1) dbRank = (dbRank, []) :=
  (C9_unauthorized_frame 0 (by decide)).2.2.2.2.1 (RmInput.digit 1) dbRank

end VoteBot
